import Mathlib

/-!
Verification development for the `document-qa-2-hw` Streamlit lab collection.

The repository's logic is embedded shallowly: each piece of application
logic (conversation-buffer policies, the tool-calling round trips, the
document loaders, the robust JSON extraction, the temperature conversion)
is translated into an executable Lean function, and the spec's testable
properties are proved about those functions.  Network calls (chat
completions, the summarizer, the weather API) and tokenizers are modelled
as explicit function parameters, so every definition stays computable.
-/

namespace DocQA

/-- A chat message as stored in `st.session_state.messages` in
`lab3.py` / `lab4.py`: a dict with a `role` and a `content` string. -/
structure Msg where
  role : String
  content : String
deriving DecidableEq, Repr

/-! ## Token-budget conversation buffer (lab3.py lines 101-109, lab4.py lines 137-147)

The Python loop walks `reversed(history)`, keeps a running token total, and
`insert(0, msg)`s each message whose tokens still fit the budget, breaking at
the first message that would overflow.  `tokenTake` is that loop over the
reversed history (newest first); `tokenBuffer` reverses its output back into
chronological order, exactly as the repeated `insert(0, ...)` does.  The
tokenizer `tiktoken` is external, so it is a parameter `tc` applied to each
message's `content`. -/

def tokenTake (tc : String → Nat) (B : Nat) : Nat → List Msg → List Msg
  | _, [] => []
  | current_tokens, msg :: rest =>
    if current_tokens + tc msg.content ≤ B then
      msg :: tokenTake tc B (current_tokens + tc msg.content) rest
    else
      []

def tokenBuffer (tc : String → Nat) (B : Nat) (history : List Msg) : List Msg :=
  (tokenTake tc B 0 history.reverse).reverse

/-- Total tokens of a message list, per the model's tokenizer. -/
def tokensOf (tc : String → Nat) (l : List Msg) : Nat :=
  (l.map (fun m => tc m.content)).sum

/-! ## Count-policy conversation buffer (lab3.py line 111, lab4.py line 136)

`st.session_state.messages[-20:]` and `history[-6:]`: for a positive count
`K`, the Python negative slice `h[-K:]` is the last `min(K, len(h))`
elements, i.e. `h.drop (h.length - K)`. -/

def countBuffer (K : Nat) (history : List Msg) : List Msg :=
  history.drop (history.length - K)

/-! ## Document loaders (lab1.py lines 52-56, streamlit_app.py lines 47-54)

lab1.py loops `document += page.extract_text() or ""` over the reader's
pages, so a page whose extraction yields nothing (modelled as `none`)
contributes `""`.  streamlit_app.py loops `document += page.extract_text()`
where `pypdf` returns a (possibly empty) string per page. -/

def load_document (pages : List (Option String)) : String :=
  pages.foldl (fun document page => document ++ page.getD "") ""

def load_document_app (pages : List String) : String :=
  pages.foldl (fun document page => document ++ page) ""

/-! ## Weather temperature conversion (lab5.py lines 34-40)

The unit-conversion block of `get_current_weather`: the OpenWeather API
delivers the temperature in Kelvin, and the function converts it to
Fahrenheit exactly when `unit.lower() == "fahrenheit"`, defaulting to
Celsius for every other unit string.  Temperatures are modelled as exact
rationals, and Python's `str.lower` as a character-wise lowering. -/

def lowerStr (s : String) : String := ⟨s.data.map Char.toLower⟩

def convert_temperature (temp_kelvin : ℚ) (unit : String) : ℚ × String :=
  if lowerStr unit = "fahrenheit" then
    ((temp_kelvin - 273.15) * 9 / 5 + 32, "Fahrenheit")
  else
    (temp_kelvin - 273.15, "Celsius")

/-! ## Robust JSON extraction (lab6.py lines 102-123)

The fact-checker takes the raw model output, computes
`json_start = raw.find(chr(123))` and `json_end = raw.rfind(chr(125)) + 1`,
raises (caught below as a parse failure) when either brace is absent,
otherwise slices `raw[json_start:json_end]` and parses the slice; on any
parse failure the error is reported with the unmodified raw text
(`st.text(result_json_string)`).  Text is modelled as `List Char`,
`json.loads` as an abstract parse function. -/

def lbrace : Char := Char.ofNat 123

def rbrace : Char := Char.ofNat 125

/-- Python `str.find`: index of the first occurrence, `None` standing for
the sentinel `-1`. -/
def strFind (s : List Char) (c : Char) : Option Nat := s.findIdx? (· = c)

/-- Python `str.rfind`: index of the last occurrence, `None` standing for
the sentinel `-1`. -/
def strRfind (s : List Char) (c : Char) : Option Nat :=
  (s.reverse.findIdx? (· = c)).map (fun i => s.length - 1 - i)

/-- Python slice `s[a:b]` for nonnegative bounds. -/
def pySlice (s : List Char) (a b : Nat) : List Char := (s.take b).drop a

inductive ParseOutcome (J : Type) where
  | parsed (v : J)
  | failed (raw : List Char)
deriving DecidableEq, Repr

def robust_json_recovery {J : Type} (jparse : List Char → Option J)
    (raw : List Char) : ParseOutcome J :=
  match strFind raw lbrace, strRfind raw rbrace with
  | some json_start, some last_idx =>
    match jparse (pySlice raw json_start (last_idx + 1)) with
    | some v => ParseOutcome.parsed v
    | none => ParseOutcome.failed raw
  | _, _ => ParseOutcome.failed raw

/-! ## The lab4.py chat turn (lab4.py lines 122-229, OpenAI/Anthropic path)

One user turn of the URL chatbot: the prompt is appended to
`st.session_state.messages`, the conversation buffer is built from
`history = messages[:-1]` under the selected memory policy (updating the
token counter), the outbound message list is assembled (substituting an
existing summary for the older history under the summary policy), the
completion endpoint is called inside `try`, and on success the assistant
reply is appended and — under the summary policy with an OpenAI key — the
summary is regenerated over the full history.  The two network endpoints
are parameters returning `NetResult`; `NetResult.err` models a raised
exception, which the `except` block renders as the displayed error
string. -/

inductive MemType where
  | count6
  | summary
  | tokens2000
deriving DecidableEq, Repr

structure SessionState where
  messages : List Msg
  conversation_summary : String
  token_count : Nat
deriving DecidableEq, Repr

inductive NetResult (α : Type) where
  | ok (val : α)
  | err (msg : String)
deriving DecidableEq, Repr

def system_prompt_text : String :=
  "You are a helpful assistant. Answer the user's question based on the provided URL content and conversation history. If the answer is not in the content, say so."

def summary_prompt : String :=
  "Please create a concise summary of the following conversation for your own memory."

/-- The memory-policy dispatch of lab4.py lines 131-151: the history buffer
together with the resulting `st.session_state.token_count` (the token
policy stores the accumulated count of the included messages; every other
policy resets the counter to 0). -/
def buildBuffer (memory_type : MemType) (tc : String → Nat) (history : List Msg) :
    List Msg × Nat :=
  match memory_type with
  | MemType.count6 => (countBuffer 6 history, 0)
  | MemType.tokens2000 =>
    (tokenBuffer tc 2000 history, tokensOf tc (tokenBuffer tc 2000 history))
  | MemType.summary => ([], 0)

/-- lab4.py lines 154-175 (non-Gemini branch): system prompt, then either
the synthetic system-role summary message (summary policy with a non-empty
stored summary) or the history buffer verbatim, then the user message
carrying the URL context and the question. -/
def build_final_messages (memory_type : MemType) (summary : String)
    (history_buffer : List Msg) (url_context prompt : String) : List Msg :=
  [⟨"system", system_prompt_text⟩] ++
  (if memory_type = MemType.summary ∧ summary ≠ "" then
    [⟨"system", "Here is a summary of the conversation so far: " ++ summary⟩]
  else
    history_buffer) ++
  [⟨"user", "CONTEXT:\n" ++ url_context ++ "\n\nQUESTION:\n" ++ prompt⟩]

def lab4_turn (memory_type : MemType) (tc : String → Nat) (hasOpenAIKey : Bool)
    (complete summarize : List Msg → NetResult String)
    (url_context : String) (s : SessionState) (prompt : String) :
    SessionState × Option String :=
  let messages1 := s.messages ++ [⟨"user", prompt⟩]
  let history := messages1.dropLast
  let bb := buildBuffer memory_type tc history
  let final_messages :=
    build_final_messages memory_type s.conversation_summary bb.1 url_context prompt
  match complete final_messages with
  | NetResult.err e =>
    (⟨messages1, s.conversation_summary, bb.2⟩, some ("An error occurred: " ++ e))
  | NetResult.ok full_response_content =>
    let messages2 := messages1 ++ [⟨"assistant", full_response_content⟩]
    if memory_type = MemType.summary ∧ hasOpenAIKey = true then
      match summarize (⟨"system", summary_prompt⟩ :: messages2) with
      | NetResult.err e =>
        (⟨messages2, s.conversation_summary, bb.2⟩, some ("An error occurred: " ++ e))
      | NetResult.ok new_summary => (⟨messages2, new_summary, bb.2⟩, none)
    else
      (⟨messages2, s.conversation_summary, bb.2⟩, none)

/-! ## Tool-calling round trips (lab5.py lines 50-101)

`run_openai_conversation` and `run_anthropic_conversation`, wired to
abstract providers: the first chat-completion response is given, and the
second completion endpoint is a function of the message list sent to it.
The weather tool's argument and result types are opaque parameters, with
`json.loads` / `json.dumps` as abstract (de)serialization.  Each runner
additionally reports the list of `get_current_weather` invocations it
performed and the message list of the second call, so the round trip can
be stated as a theorem. -/

structure OAIToolCall where
  id : String
  fnName : String
  arguments : String
deriving DecidableEq, Repr

structure OAIRespMsg where
  role : String
  content : String
  tool_calls : List OAIToolCall
deriving DecidableEq, Repr

inductive OAIMsg where
  | basic (role content : String)
  | assistantToolMsg (m : OAIRespMsg)
  | toolResult (tool_call_id fnName content : String)
deriving DecidableEq, Repr

structure ToolRun (WArgs M : Type) where
  answer : String
  weatherCalls : List WArgs
  secondMessages : Option (List M)
deriving DecidableEq, Repr

def run_openai_conversation {WArgs WRes : Type}
    (jsonLoads : String → WArgs) (jsonDumps : WRes → String)
    (get_current_weather : WArgs → WRes)
    (firstResponse : OAIRespMsg) (complete2 : List OAIMsg → String)
    (system_prompt user_prompt : String) : ToolRun WArgs OAIMsg :=
  let messages : List OAIMsg :=
    [OAIMsg.basic "system" system_prompt, OAIMsg.basic "user" user_prompt]
  match firstResponse.tool_calls with
  | [] => ⟨firstResponse.content, [], none⟩
  | tool_call :: _ =>
    let function_args := jsonLoads tool_call.arguments
    let function_response := get_current_weather function_args
    let messages := messages ++
      [OAIMsg.assistantToolMsg firstResponse,
       OAIMsg.toolResult tool_call.id "get_current_weather" (jsonDumps function_response)]
    ⟨complete2 messages, [function_args], some messages⟩

structure AnthBlock (WArgs : Type) where
  type : String
  id : String
  text : String
  input : WArgs
deriving DecidableEq, Repr

structure AnthResponse (WArgs : Type) where
  stop_reason : String
  content : List (AnthBlock WArgs)
deriving DecidableEq, Repr

inductive AnthMsg (WArgs : Type) where
  | text (role content : String)
  | assistantBlocks (blocks : List (AnthBlock WArgs))
  | toolResult (tool_use_id content : String)
deriving DecidableEq, Repr

/-- The Anthropic handler returns `none` where the Python raises an
uncaught exception (`next` on an empty generator, `content[0]` of an empty
response). -/
def run_anthropic_conversation {WArgs WRes : Type}
    (jsonDumps : WRes → String) (get_current_weather : WArgs → WRes)
    (firstResponse : AnthResponse WArgs)
    (complete2 : List (AnthMsg WArgs) → String)
    (user_prompt : String) : Option (ToolRun WArgs (AnthMsg WArgs)) :=
  if firstResponse.stop_reason = "tool_use" then
    match firstResponse.content.find? (fun block => block.type == "tool_use") with
    | none => none
    | some tool_call =>
      let function_args := tool_call.input
      let function_response := get_current_weather function_args
      let messages : List (AnthMsg WArgs) :=
        [AnthMsg.text "user" user_prompt,
         AnthMsg.assistantBlocks firstResponse.content,
         AnthMsg.toolResult tool_call.id (jsonDumps function_response)]
      some ⟨complete2 messages, [function_args], some messages⟩
  else
    match firstResponse.content with
    | [] => none
    | block :: _ => some ⟨block.text, [], none⟩

/-! ## Vector store (spec sections 3, 4.3 and 8)

The RAG labs that implement the vector store are not among the six source
files of this repository (only the spec describes them), so the store is
modelled from the spec. -/

/-- Modelled from the spec: a Document Record of the Vector Store —
identifier, raw text, and embedding vector (exact integer coordinates). -/
structure DocumentRecord where
  identifier : String
  text : String
  embedding : List Int
deriving DecidableEq, Repr

/-- Modelled from the spec: the Vector Store's collection of records. -/
abbrev VectorStore := List DocumentRecord

/-- Modelled from the spec: squared Euclidean distance between embeddings,
the dissimilarity used to order nearest-neighbour results. -/
def sqDist (a b : List Int) : Int :=
  (List.zipWith (fun x y => (x - y) * (x - y)) a b).sum

/-- Modelled from the spec: `upsert(identifier, text, embedding)` replaces
any existing record with the same identifier. -/
def upsert (store : VectorStore) (identifier text : String)
    (embedding : List Int) : VectorStore :=
  ⟨identifier, text, embedding⟩ ::
    store.filter (fun r => r.identifier != identifier)

/-- Modelled from the spec: `clear()` removes all records, used when
switching the active document. -/
def clear (_store : VectorStore) : VectorStore := []

def insertByDist (emb : List Int) (r : DocumentRecord) :
    List DocumentRecord → List DocumentRecord
  | [] => [r]
  | x :: xs =>
    if sqDist r.embedding emb ≤ sqDist x.embedding emb then r :: x :: xs
    else x :: insertByDist emb r xs

def sortByDist (emb : List Int) : List DocumentRecord → List DocumentRecord
  | [] => []
  | x :: xs => insertByDist emb x (sortByDist emb xs)

/-- Modelled from the spec: `query(embedding, top_n)` returns up to
`top_n` records ordered by ascending distance to the query embedding, or
the explicit no-results sentinel (`none`) when the store is empty. -/
def query (store : VectorStore) (embedding : List Int) (top_n : Nat) :
    Option (List DocumentRecord) :=
  if store.isEmpty then none
  else some ((sortByDist embedding store).take top_n)

/-! ## Theorems -/

theorem tokenTake_isPrefix (tc : String → Nat) (B : Nat) :
    ∀ (l : List Msg) (cur : Nat), tokenTake tc B cur l <+: l := by
  intro l
  induction l with
  | nil => intro cur; simp [tokenTake]
  | cons m rest ih =>
    intro cur
    by_cases h : cur + tc m.content ≤ B
    · simpa [tokenTake, h, List.cons_prefix_cons] using ih (cur + tc m.content)
    · simp [tokenTake, h]

theorem tokenTake_sum_le (tc : String → Nat) (B : Nat) :
    ∀ (l : List Msg) (cur : Nat), cur ≤ B →
      cur + tokensOf tc (tokenTake tc B cur l) ≤ B := by
  intro l
  induction l with
  | nil => intro cur hc; simpa [tokenTake, tokensOf] using hc
  | cons m rest ih =>
    intro cur hc
    by_cases h : cur + tc m.content ≤ B
    · have := ih (cur + tc m.content) h
      simp only [tokenTake, h, if_true, tokensOf, List.map_cons, List.sum_cons] at *
      omega
    · simpa [tokenTake, h, tokensOf] using hc

theorem tokenTake_maximal (tc : String → Nat) (B : Nat) :
    ∀ (l : List Msg) (cur : Nat),
      tokenTake tc B cur l = l ∨
      ∃ m rest, l = tokenTake tc B cur l ++ m :: rest ∧
        B < cur + tokensOf tc (tokenTake tc B cur l) + tc m.content := by
  intro l
  induction l with
  | nil => intro cur; left; rfl
  | cons m rest ih =>
    intro cur
    by_cases h : cur + tc m.content ≤ B
    · rcases ih (cur + tc m.content) with heq | ⟨m', rest', hdec, hover⟩
      · left; simp [tokenTake, h, heq]
      · right
        refine ⟨m', rest', ?_, ?_⟩
        · simpa [tokenTake, h] using congrArg (m :: ·) hdec
        · simp only [tokenTake, h, if_true, tokensOf, List.map_cons, List.sum_cons] at *
          omega
    · right
      refine ⟨m, rest, ?_, ?_⟩
      · simp [tokenTake, h]
      · push_neg at h
        simp only [tokenTake, h.not_le, if_neg, tokensOf, List.map_nil, List.sum_nil]
        omega

theorem tokenBuffer_isSuffix (tc : String → Nat) (B : Nat) (h : List Msg) :
    tokenBuffer tc B h <:+ h := by
  rw [← List.reverse_prefix]
  simpa [tokenBuffer] using tokenTake_isPrefix tc B h.reverse 0

/-- **C1.** For every message history and token budget, the token-policy
buffer (lab3.py lines 101-109, lab4.py lines 137-147) returns a contiguous
suffix of the history in original chronological order, the per-message
token counts of the returned messages sum to at most the budget, and the
next-older message excluded from the buffer cannot be added without the
sum exceeding the budget. -/
theorem tokenBuffer_suffix_budget_maximal (tc : String → Nat) (B : Nat) (h : List Msg) :
    tokenBuffer tc B h <:+ h ∧
    tokensOf tc (tokenBuffer tc B h) ≤ B ∧
    ∀ pre m, h = pre ++ m :: tokenBuffer tc B h →
      B < tokensOf tc (tokenBuffer tc B h) + tc m.content := by
  have hbufrev : (tokenBuffer tc B h).reverse = tokenTake tc B 0 h.reverse := by
    simp [tokenBuffer]
  have hsumrev : tokensOf tc (tokenBuffer tc B h) = tokensOf tc (tokenTake tc B 0 h.reverse) := by
    rw [← hbufrev]; simp [tokensOf, List.sum_reverse]
  refine ⟨tokenBuffer_isSuffix tc B h, ?_, ?_⟩
  · rw [hsumrev]
    have := tokenTake_sum_le tc B h.reverse 0 (Nat.zero_le B)
    omega
  · intro pre m hdec
    rcases tokenTake_maximal tc B h.reverse 0 with heq | ⟨m', rest', hsplit, hover⟩
    · exfalso
      have hbuf : tokenBuffer tc B h = h := by
        simp [tokenBuffer, heq]
      rw [hbuf] at hdec
      have := congrArg List.length hdec
      simp at this
      omega
    · have hrev : h.reverse = tokenTake tc B 0 h.reverse ++ m :: pre.reverse := by
        rw [← hbufrev]
        conv_lhs => rw [hdec]
        simp
      have hc : m' :: rest' = m :: pre.reverse :=
        List.append_cancel_left (hsplit.symm.trans hrev)
      have hm : m' = m := by injection hc
      rw [hsumrev]
      rw [hm] at hover
      omega

/-- Spot check for C1 at a concrete history and budget: with per-message
counts 2,2,2 and budget 3, only the newest message fits, and the next-older
message "bb" cannot be added without exceeding the budget. -/
theorem tokenBuffer_suffix_budget_maximal_spot :
    tokenBuffer String.length 3 [⟨"user", "aa"⟩, ⟨"user", "bb"⟩, ⟨"user", "cc"⟩] =
      [⟨"user", "cc"⟩] ∧
    3 < tokensOf String.length
        (tokenBuffer String.length 3 [⟨"user", "aa"⟩, ⟨"user", "bb"⟩, ⟨"user", "cc"⟩]) +
      ("bb" : String).length := by
  refine ⟨by decide, ?_⟩
  exact (tokenBuffer_suffix_budget_maximal String.length 3
    [⟨"user", "aa"⟩, ⟨"user", "bb"⟩, ⟨"user", "cc"⟩]).2.2
    [⟨"user", "aa"⟩] ⟨"user", "bb"⟩ (by decide)

/-- **C2.** For every history and positive configured count K, the
count-policy buffer (lab3.py line 111, lab4.py line 136) returns exactly
`min K (length H)` trailing elements of H, in original order: it is a
suffix of H of that exact length. -/
theorem countBuffer_min_trailing (K : Nat) (h : List Msg) (hK : 0 < K) :
    countBuffer K h <:+ h ∧ (countBuffer K h).length = min K h.length := by
  refine ⟨List.drop_suffix _ _, ?_⟩
  simp [countBuffer]
  omega

/-- Spot check for C2 at the configured count 6 of lab4.py on a 3-message
history. -/
theorem countBuffer_min_trailing_spot :
    countBuffer 6 [⟨"user", "a"⟩, ⟨"assistant", "b"⟩, ⟨"user", "c"⟩] <:+
      [⟨"user", "a"⟩, ⟨"assistant", "b"⟩, ⟨"user", "c"⟩] ∧
    (countBuffer 6 [⟨"user", "a"⟩, ⟨"assistant", "b"⟩, ⟨"user", "c"⟩]).length =
      min 6 ([⟨"user", "a"⟩, ⟨"assistant", "b"⟩, ⟨"user", "c"⟩] : List Msg).length :=
  countBuffer_min_trailing 6 [⟨"user", "a"⟩, ⟨"assistant", "b"⟩, ⟨"user", "c"⟩] (by decide)

theorem load_document_foldl_length (pages : List (Option String)) :
    ∀ acc : String, (pages.foldl (fun document page => document ++ page.getD "") acc).length =
      acc.length + (pages.map (fun page => (page.getD "").length)).sum := by
  induction pages with
  | nil => intro acc; simp
  | cons p rest ih =>
    intro acc
    simp only [List.foldl_cons, List.map_cons, List.sum_cons, ih (acc ++ p.getD ""),
      String.length_append]
    omega

theorem load_document_app_foldl_length (pages : List String) :
    ∀ acc : String, (pages.foldl (fun document page => document ++ page) acc).length =
      acc.length + (pages.map String.length).sum := by
  induction pages with
  | nil => intro acc; simp
  | cons p rest ih =>
    intro acc
    simp only [List.foldl_cons, List.map_cons, List.sum_cons, ih (acc ++ p),
      String.length_append]
    omega

/-- **C4.** Both document loaders return the concatenation of the text
extracted from every page; a page yielding no extractable text contributes
the empty string rather than an error, so the output length equals the sum
of the per-page extracted lengths. -/
theorem load_document_concat_length (pages : List (Option String)) (pagesApp : List String) :
    load_document pages = String.join (pages.map (fun page => page.getD "")) ∧
    (load_document pages).length = (pages.map (fun page => (page.getD "").length)).sum ∧
    (load_document_app pagesApp).length = (pagesApp.map String.length).sum := by
  refine ⟨?_, ?_, ?_⟩
  · simp [load_document, String.join, List.foldl_map]
  · simpa using load_document_foldl_length pages ""
  · simpa using load_document_app_foldl_length pagesApp ""

/-- **C10.** For every Kelvin temperature and every unit string, the
conversion yields Fahrenheit `(k - 273.15) * 9/5 + 32` exactly when
`unit.lower()` equals `"fahrenheit"`, and Celsius `k - 273.15` for every
other unit string (including arbitrary invalid values and the omitted
default `"celsius"`), raising no error for unrecognized units. -/
theorem convert_temperature_cases (temp_kelvin : ℚ) (unit : String) :
    (lowerStr unit = "fahrenheit" →
      convert_temperature temp_kelvin unit =
        ((temp_kelvin - 273.15) * 9 / 5 + 32, "Fahrenheit")) ∧
    (lowerStr unit ≠ "fahrenheit" →
      convert_temperature temp_kelvin unit = (temp_kelvin - 273.15, "Celsius")) := by
  constructor <;> intro hu <;> simp [convert_temperature, hu]

/-- Spot check for C10: an explicit Fahrenheit request (with capital F) and
an unrecognized unit string, evaluated at 300 K. -/
theorem convert_temperature_cases_spot :
    convert_temperature 300 "Fahrenheit" = ((300 - 273.15) * 9 / 5 + 32, "Fahrenheit") ∧
    convert_temperature 300 "kelvin" = (300 - 273.15, "Celsius") :=
  ⟨(convert_temperature_cases 300 "Fahrenheit").1 (by decide),
   (convert_temperature_cases 300 "kelvin").2 (by decide)⟩

/-- **C7.** When the model's output is not well-formed JSON, the
application recovers by extracting the substring from the first brace to
the last closing brace and attempting the parse on that substring (a
successful parse of the slice yields its value); if parsing still fails,
or no such substring exists, the failure is reported together with the
unmodified raw text. -/
theorem robust_json_recovery_cases {J : Type} (jparse : List Char → Option J)
    (raw : List Char) (hmal : jparse raw = none) :
    (∀ i j v, strFind raw lbrace = some i → strRfind raw rbrace = some j →
      jparse (pySlice raw i (j + 1)) = some v →
      robust_json_recovery jparse raw = ParseOutcome.parsed v) ∧
    (∀ i j, strFind raw lbrace = some i → strRfind raw rbrace = some j →
      jparse (pySlice raw i (j + 1)) = none →
      robust_json_recovery jparse raw = ParseOutcome.failed raw) ∧
    (strFind raw lbrace = none ∨ strRfind raw rbrace = none →
      robust_json_recovery jparse raw = ParseOutcome.failed raw) := by
  refine ⟨?_, ?_, ?_⟩
  · intro i j v h1 h2 h3
    simp [robust_json_recovery, h1, h2, h3]
  · intro i j h1 h2 h3
    simp [robust_json_recovery, h1, h2, h3]
  · rintro (h1 | h2)
    · simp [robust_json_recovery, h1]
    · cases hf : strFind raw lbrace <;> simp [robust_json_recovery, hf, h2]

/-- Spot check for C7: raw output with chatter around a JSON object; the
raw text as a whole does not parse, the bracket-delimited slice does. -/
theorem robust_json_recovery_cases_spot :
    robust_json_recovery
      (fun s => if s = [lbrace, rbrace] then some 1 else none)
      ['x', lbrace, rbrace, 'y'] = ParseOutcome.parsed 1 :=
  (robust_json_recovery_cases
      (fun s => if s = [lbrace, rbrace] then some 1 else none)
      ['x', lbrace, rbrace, 'y'] (by decide)).1
    1 2 1 (by decide) (by decide) (by decide)

/-- **C5 (counterexample).** The claim that after a failed network call
all session state existing prior to the user action is unchanged is false:
lab4.py appends the user's message to `st.session_state.messages` before
the completion call, so after a failure the stored history differs from
its pre-turn value (here: empty before the turn, one user message after). -/
theorem lab4_turn_failure_counterexample :
    (lab4_turn MemType.tokens2000 String.length false
        (fun _ => NetResult.err "timeout") (fun _ => NetResult.err "timeout")
        "" ⟨[], "", 0⟩ "hi").1.messages ≠ (⟨[], "", 0⟩ : SessionState).messages := by
  decide

/-- **C5 (amended).** When the completion call fails during a user turn,
the exception is caught, the error message is shown, and the turn is
aborted: no assistant message is appended and the stored conversation
summary is unchanged.  However, the user's own message remains appended to
the history, and the token counter holds the value computed for the failed
request's buffer rather than its pre-turn value. -/
theorem lab4_turn_failure_state (memory_type : MemType) (tc : String → Nat)
    (hasOpenAIKey : Bool) (complete summarize : List Msg → NetResult String)
    (url_context : String) (s : SessionState) (prompt e : String)
    (hfail : complete (build_final_messages memory_type s.conversation_summary
        (buildBuffer memory_type tc s.messages).1 url_context prompt) = NetResult.err e) :
    (lab4_turn memory_type tc hasOpenAIKey complete summarize url_context s prompt).1 =
      ⟨s.messages ++ [⟨"user", prompt⟩], s.conversation_summary,
        (buildBuffer memory_type tc s.messages).2⟩ ∧
    (lab4_turn memory_type tc hasOpenAIKey complete summarize url_context s prompt).2 =
      some ("An error occurred: " ++ e) := by
  unfold lab4_turn
  simp only [List.dropLast_concat]
  rw [hfail]
  exact ⟨rfl, rfl⟩

/-- Spot check for C5 (amended) at a concrete failing turn. -/
theorem lab4_turn_failure_state_spot :
    (lab4_turn MemType.count6 String.length true (fun _ => NetResult.err "boom")
        (fun _ => NetResult.ok "s") "U" ⟨[⟨"user", "old"⟩], "S", 7⟩ "hi").1 =
      ⟨[⟨"user", "old"⟩, ⟨"user", "hi"⟩], "S", 0⟩ ∧
    (lab4_turn MemType.count6 String.length true (fun _ => NetResult.err "boom")
        (fun _ => NetResult.ok "s") "U" ⟨[⟨"user", "old"⟩], "S", 7⟩ "hi").2 =
      some ("An error occurred: boom") := by
  obtain ⟨h1, h2⟩ := lab4_turn_failure_state MemType.count6 String.length true
    (fun _ => NetResult.err "boom") (fun _ => NetResult.ok "s") "U"
    ⟨[⟨"user", "old"⟩], "S", 7⟩ "hi" "boom" rfl
  refine ⟨?_, h2⟩
  rw [h1]
  decide

/-- **C6.** No conversation-buffer policy mutates the full session message
history: every policy's buffer is a read-only subsequence of the history
it is computed from, and after the turn the stored (UI-visible) history is
the complete untruncated list — the prior history plus the new user
message and, on success, the assistant reply — never the buffer. -/
theorem lab4_turn_buffer_readonly (memory_type : MemType) (tc : String → Nat)
    (hasOpenAIKey : Bool) (complete summarize : List Msg → NetResult String)
    (url_context : String) (s : SessionState) (prompt : String) :
    List.Sublist (buildBuffer memory_type tc s.messages).1 s.messages ∧
    s.messages <+:
      (lab4_turn memory_type tc hasOpenAIKey complete summarize url_context s
        prompt).1.messages ∧
    ((lab4_turn memory_type tc hasOpenAIKey complete summarize url_context s
        prompt).1.messages = s.messages ++ [⟨"user", prompt⟩] ∨
      ∃ reply,
        (lab4_turn memory_type tc hasOpenAIKey complete summarize url_context s
          prompt).1.messages =
          s.messages ++ [⟨"user", prompt⟩, ⟨"assistant", reply⟩]) := by
  have hsub : List.Sublist (buildBuffer memory_type tc s.messages).1 s.messages := by
    cases memory_type with
    | count6 => exact (List.drop_suffix _ _).sublist
    | tokens2000 => exact (tokenBuffer_isSuffix tc 2000 s.messages).sublist
    | summary => exact List.nil_sublist _
  have hdis : (lab4_turn memory_type tc hasOpenAIKey complete summarize url_context s
      prompt).1.messages = s.messages ++ [⟨"user", prompt⟩] ∨
      ∃ reply,
        (lab4_turn memory_type tc hasOpenAIKey complete summarize url_context s
          prompt).1.messages =
          s.messages ++ [⟨"user", prompt⟩, ⟨"assistant", reply⟩] := by
    unfold lab4_turn
    simp only [List.dropLast_concat]
    cases complete (build_final_messages memory_type s.conversation_summary
        (buildBuffer memory_type tc s.messages).1 url_context prompt) with
    | err e => left; rfl
    | ok reply =>
      dsimp only
      by_cases hif : memory_type = MemType.summary ∧ hasOpenAIKey = true
      · rw [if_pos hif]
        cases summarize (⟨"system", summary_prompt⟩ ::
            (s.messages ++ [⟨"user", prompt⟩] ++ [⟨"assistant", reply⟩])) with
        | err e2 => right; exact ⟨reply, by simp⟩
        | ok new_summary => right; exact ⟨reply, by simp⟩
      · rw [if_neg hif]
        right; exact ⟨reply, by simp⟩
  refine ⟨hsub, ?_, hdis⟩
  rcases hdis with h | ⟨reply, h⟩ <;> rw [h] <;> exact List.prefix_append _ _

/-- **C8 (counterexample).** The claim that under the summary policy the
summary is regenerated after every assistant turn is false: lab4.py line
219 gates regeneration on `st.secrets.get("OPENAI_API_KEY")`, which can be
absent while another provider's key is configured.  Here an assistant turn
completes without error (the reply "A" is appended, no message displayed)
and the summarizer would return "NS", yet the stored summary remains
"S". -/
theorem lab4_turn_summary_policy_counterexample :
    (lab4_turn MemType.summary String.length false (fun _ => NetResult.ok "A")
        (fun _ => NetResult.ok "NS") "U" ⟨[⟨"user", "q0"⟩], "S", 0⟩ "q1") =
      (⟨[⟨"user", "q0"⟩, ⟨"user", "q1"⟩, ⟨"assistant", "A"⟩], "S", 0⟩, none) ∧
    ("S" : String) ≠ "NS" := by
  exact ⟨by decide, by decide⟩

/-- **C8 (amended).** Under the summary policy with a previously generated
summary, the outbound request substitutes the stored summary for the
entire older history as a synthetic system-role message — only the turn's
tail (the current user message) follows it verbatim.  After a successful
assistant turn the summary is regenerated by the auxiliary summarization
call over the full stored history only when an OpenAI API key is
configured; without one, regeneration is silently skipped and the stored
summary is left unchanged. -/
theorem lab4_turn_summary_policy (tc : String → Nat)
    (complete summarize : List Msg → NetResult String) (url_context : String)
    (s : SessionState) (prompt reply new_summary : String)
    (hsum : s.conversation_summary ≠ "")
    (hok : complete (build_final_messages MemType.summary s.conversation_summary
        (buildBuffer MemType.summary tc s.messages).1 url_context prompt) =
      NetResult.ok reply)
    (hsm : summarize (⟨"system", summary_prompt⟩ ::
        (s.messages ++ [⟨"user", prompt⟩, ⟨"assistant", reply⟩])) =
      NetResult.ok new_summary) :
    build_final_messages MemType.summary s.conversation_summary
        (buildBuffer MemType.summary tc s.messages).1 url_context prompt =
      [⟨"system", system_prompt_text⟩,
       ⟨"system", "Here is a summary of the conversation so far: " ++
         s.conversation_summary⟩,
       ⟨"user", "CONTEXT:\n" ++ url_context ++ "\n\nQUESTION:\n" ++ prompt⟩] ∧
    (lab4_turn MemType.summary tc true complete summarize url_context s prompt).1 =
      ⟨s.messages ++ [⟨"user", prompt⟩, ⟨"assistant", reply⟩], new_summary, 0⟩ ∧
    (lab4_turn MemType.summary tc false complete summarize url_context s prompt).1 =
      ⟨s.messages ++ [⟨"user", prompt⟩, ⟨"assistant", reply⟩],
        s.conversation_summary, 0⟩ := by
  have hmsgs : s.messages ++ [(⟨"user", prompt⟩ : Msg)] ++ [(⟨"assistant", reply⟩ : Msg)] =
      s.messages ++ [⟨"user", prompt⟩, ⟨"assistant", reply⟩] := by simp
  refine ⟨?_, ?_, ?_⟩
  · simp [build_final_messages, hsum]
  · unfold lab4_turn
    simp only [List.dropLast_concat]
    rw [hok]
    dsimp only
    rw [hmsgs, hsm]
    simp [buildBuffer]
  · unfold lab4_turn
    simp only [List.dropLast_concat]
    rw [hok]
    dsimp only
    simp [buildBuffer]

/-- Spot check for C8 (amended): a one-message history with stored summary
"S"; with an OpenAI key the regenerated summary is "NS", without one the
same successful turn leaves the summary at "S". -/
theorem lab4_turn_summary_policy_spot :
    (lab4_turn MemType.summary String.length true (fun _ => NetResult.ok "A")
        (fun _ => NetResult.ok "NS") "V" ⟨[⟨"user", "p0"⟩], "S", 0⟩ "p1").1 =
      ⟨[⟨"user", "p0"⟩, ⟨"user", "p1"⟩, ⟨"assistant", "A"⟩], "NS", 0⟩ ∧
    (lab4_turn MemType.summary String.length false (fun _ => NetResult.ok "A")
        (fun _ => NetResult.ok "NS") "V" ⟨[⟨"user", "p0"⟩], "S", 0⟩ "p1").1 =
      ⟨[⟨"user", "p0"⟩, ⟨"user", "p1"⟩, ⟨"assistant", "A"⟩], "S", 0⟩ := by
  obtain ⟨h1, h2, h3⟩ := lab4_turn_summary_policy String.length
    (fun _ => NetResult.ok "A") (fun _ => NetResult.ok "NS") "V"
    ⟨[⟨"user", "p0"⟩], "S", 0⟩ "p1" "A" "NS" (by decide) rfl rfl
  constructor
  · rw [h2]
    decide
  · rw [h3]
    decide

/-- **C3.** If the provider's first chat-completion response signals a
tool invocation with arguments A, then `get_current_weather` is invoked
exactly once with exactly those arguments, and the message list of the
second completion call contains both the tool-call record and the
JSON-serialized tool result before the final answer is requested (the
answer is the second endpoint applied to exactly that list).  Stated for
both the OpenAI and the Anthropic handler of lab5.py. -/
theorem tool_round_trip {WArgs WRes : Type}
    (jsonLoads : String → WArgs) (jsonDumps : WRes → String)
    (get_current_weather : WArgs → WRes)
    (firstResponse : OAIRespMsg) (complete2 : List OAIMsg → String)
    (system_prompt user_prompt : String)
    (tool_call : OAIToolCall) (restCalls : List OAIToolCall)
    (htc : firstResponse.tool_calls = tool_call :: restCalls)
    (anthResponse : AnthResponse WArgs)
    (complete2A : List (AnthMsg WArgs) → String) (user_promptA : String)
    (anth_tool_call : AnthBlock WArgs)
    (hstop : anthResponse.stop_reason = "tool_use")
    (hfind : anthResponse.content.find? (fun block => block.type == "tool_use") =
      some anth_tool_call) :
    run_openai_conversation jsonLoads jsonDumps get_current_weather firstResponse
        complete2 system_prompt user_prompt =
      { answer := complete2
          [OAIMsg.basic "system" system_prompt, OAIMsg.basic "user" user_prompt,
           OAIMsg.assistantToolMsg firstResponse,
           OAIMsg.toolResult tool_call.id "get_current_weather"
             (jsonDumps (get_current_weather (jsonLoads tool_call.arguments)))],
        weatherCalls := [jsonLoads tool_call.arguments],
        secondMessages := some
          [OAIMsg.basic "system" system_prompt, OAIMsg.basic "user" user_prompt,
           OAIMsg.assistantToolMsg firstResponse,
           OAIMsg.toolResult tool_call.id "get_current_weather"
             (jsonDumps (get_current_weather (jsonLoads tool_call.arguments)))] } ∧
    run_anthropic_conversation jsonDumps get_current_weather anthResponse
        complete2A user_promptA =
      some
        { answer := complete2A
            [AnthMsg.text "user" user_promptA,
             AnthMsg.assistantBlocks anthResponse.content,
             AnthMsg.toolResult anth_tool_call.id
               (jsonDumps (get_current_weather anth_tool_call.input))],
          weatherCalls := [anth_tool_call.input],
          secondMessages := some
            [AnthMsg.text "user" user_promptA,
             AnthMsg.assistantBlocks anthResponse.content,
             AnthMsg.toolResult anth_tool_call.id
               (jsonDumps (get_current_weather anth_tool_call.input))] } := by
  constructor
  · simp [run_openai_conversation, htc]
  · simp [run_anthropic_conversation, hstop, hfind]

/-- Spot check for C3: concrete tool calls with argument "Paris" on both
handlers; each invokes the weather function exactly once with "Paris". -/
theorem tool_round_trip_spot :
    (run_openai_conversation (fun s => s) (fun s => s) (fun a => a ++ "!")
        ⟨"assistant", "", [⟨"c1", "get_current_weather", "Paris"⟩]⟩
        (fun _ => "final") "sys" "ask").weatherCalls = ["Paris"] ∧
    (run_anthropic_conversation (fun s => s) (fun a => a ++ "!")
        ⟨"tool_use", [⟨"tool_use", "t1", "", "Paris"⟩]⟩
        (fun _ => "finalA") "hi").map (fun r => r.weatherCalls) = some ["Paris"] := by
  obtain ⟨h1, h2⟩ := tool_round_trip (fun s => s) (fun s => s) (fun a => a ++ "!")
    ⟨"assistant", "", [⟨"c1", "get_current_weather", "Paris"⟩]⟩ (fun _ => "final")
    "sys" "ask" ⟨"c1", "get_current_weather", "Paris"⟩ [] rfl
    ⟨"tool_use", [⟨"tool_use", "t1", "", "Paris"⟩]⟩ (fun _ => "finalA") "hi"
    ⟨"tool_use", "t1", "", "Paris"⟩ rfl (by decide)
  constructor
  · rw [h1]
  · rw [h2]
    rfl

/-- **C9.** After `clear()`, `query` returns the explicit no-result
sentinel for every query embedding and every `top_n`, regardless of the
store's prior contents. -/
theorem query_after_clear (store : VectorStore) (embedding : List Int)
    (top_n : Nat) : query (clear store) embedding top_n = none := rfl
